import Mathlib

/-!
Shallow embedding of the LittleCrawler core components and proofs about them:
the XiaoHongShu publish pipeline (`src/platforms/xhs/publisher.py`), the proxy
IP pool (`src/services/proxy/proxy_ip_pool.py`), the human-behavior delay
scheduler (`src/utils/human_behavior.py`), the browser launcher cleanup
(`src/utils/browser_launcher.py`), and the async JSON file writer
(`src/utils/async_file_writer.py`).

Python strings are modelled as `List Char`; network responses, random draws
and OS interactions are passed in as explicit parameters so that the control
flow of each function is translated faithfully from the source.
-/

namespace LittleCrawler

/-- Python strings are modelled as lists of characters. -/
abbrev Str := List Char

/-- Invisible character `TOPIC_MARKER = "﻿"` wrapped around topic
tags in `publisher.py`. -/
def TOPIC_MARKER : Str := ['﻿']

/-- Dataclass `TopicInfo` from `publisher.py`. -/
structure TopicInfo where
  id : Str
  name : Str
  link : Str
  type : Str
deriving DecidableEq, Repr

/-- Dataclass `ImageInfo` from `publisher.py`. -/
structure ImageInfo where
  fileId : Str
  width : Nat
  height : Nat
  localPath : Str
deriving DecidableEq, Repr

/-- Python substring test (the operator `in` on strings): some split of `s` starts with `pat`. -/
def containsSubstring (pat l : Str) : Bool :=
  (List.range (l.length + 1)).any fun i => pat.isPrefixOf (l.drop i)

/-- Tag text built in `_build_desc_with_topics`: the marker, then a hash sign,
the topic name, the literal `[话题]#`, then the marker again. -/
def tagText (t : TopicInfo) : Str :=
  TOPIC_MARKER ++ ('#' :: t.name) ++ "[话题]#".toList ++ TOPIC_MARKER

/-- One iteration of the loop body of `_build_desc_with_topics`: append the
marker-wrapped tag unless `#name` already occurs in the text. -/
def buildStep (result : Str) (t : TopicInfo) : Str :=
  if containsSubstring ('#' :: t.name) result then result
  else result ++ ' ' :: tagText t

/-- `XiaoHongShuPublisher._build_desc_with_topics`. -/
def buildDescWithTopics (desc : Str) (topics : List TopicInfo) : Str :=
  topics.foldl buildStep desc

/-- Number of occurrences of `pat` as a substring of `l` (one per start
position). -/
def countOccurrences (pat l : Str) : Nat :=
  (List.range (l.length + 1)).countP fun i => pat.isPrefixOf (l.drop i)

/-- Errors raised by `upload_images`: the `ValueError` for an empty image
list, and the `Exception("获取的 file_id 数量不足: got < need")` raised when the
credential step returned fewer slot identifiers than assets (named
`InsufficientCredentialError` by the spec). -/
inductive PublishError where
  | valueError
  | insufficientCredential (got need : Nat)
deriving DecidableEq, Repr

/-- The `file_ids`/`token` dictionary returned by `get_upload_permit`. -/
structure UploadPermit where
  fileIds : List Str
  token : Str
deriving DecidableEq, Repr

/-- One `PUT` upload issued by `upload_image` against slot `fileId`. -/
structure UploadEvent where
  path : Str
  fileId : Str
  token : Str
deriving DecidableEq, Repr

/-- `XiaoHongShuPublisher.upload_image`: reads the pixel dimensions of the
asset (modelled by the `dims` oracle), issues one `PUT` against the slot, and
returns the `ImageInfo`.  The emitted `UploadEvent` records the `PUT`. -/
def uploadImage (dims : Str → Nat × Nat) (imagePath : Str) (fileId : Str)
    (token : Str) : ImageInfo × UploadEvent :=
  (⟨fileId, (dims imagePath).1, (dims imagePath).2, imagePath⟩,
   ⟨imagePath, fileId, token⟩)

/-- `XiaoHongShuPublisher.upload_images`: raises `ValueError` on an empty
list, obtains the permit (passed in as the response of the credential step),
raises the insufficient-credential error when `len(file_ids) <
len(image_paths)`, and otherwise uploads the assets one by one using
`file_ids[i]`.  The second component is the list of `PUT` uploads actually
issued. -/
def uploadImages (dims : Str → Nat × Nat) (permit : UploadPermit)
    (imagePaths : List Str) :
    Except PublishError (List ImageInfo) × List UploadEvent :=
  if imagePaths.isEmpty then (.error .valueError, [])
  else if permit.fileIds.length < imagePaths.length then
    (.error (.insufficientCredential permit.fileIds.length imagePaths.length), [])
  else
    let pairs := imagePaths.zip permit.fileIds
    (.ok (pairs.map fun pr => (uploadImage dims pr.1 pr.2 permit.token).1),
     pairs.map fun pr => (uploadImage dims pr.1 pr.2 permit.token).2)

/-- The observable content of one HTTP response as seen by
`XiaoHongShuPublisher._request`: transport status, whether the content type
declares JSON, whether the parsed body is a dict, whether its `success` field
is the boolean `False`, its optional `msg` field, and the raw text. -/
structure RawResponse where
  status : Nat
  contentTypeJson : Bool
  jsonIsDict : Bool
  successIsFalse : Bool
  msg : Option Str
  text : Str
deriving DecidableEq, Repr

/-- Errors raised by `_request`: `response.raise_for_status()` on a non-2xx
transport status (named `HttpError` by the spec), and the
`Exception(f"API 错误: ...")` raised on a `success: false` JSON dict body (named
`ApiError` by the spec). -/
inductive RequestError where
  | httpError (status : Nat)
  | apiError (message : Str)
deriving DecidableEq, Repr

/-- A successful `_request` outcome: parsed JSON data, or the raw response
for non-JSON content types. -/
inductive RequestValue where
  | jsonData (r : RawResponse)
  | rawResponse (r : RawResponse)
deriving DecidableEq, Repr

/-- Success range of httpx used by `raise_for_status`: 2xx. -/
def isSuccessStatus (status : Nat) : Bool :=
  decide (200 ≤ status) && decide (status < 300)

/-- One attempt of `XiaoHongShuPublisher._request`:
`raise_for_status` on non-2xx, then JSON bodies that are dicts with
the boolean false under `success` raise the API error carrying the `msg`
field, defaulting to the response text; otherwise the data (or the raw
response) is returned. -/
def requestOnce (r : RawResponse) : Except RequestError RequestValue :=
  if !(isSuccessStatus r.status) then .error (.httpError r.status)
  else if r.contentTypeJson then
    if r.jsonIsDict && r.successIsFalse then
      .error (.apiError (r.msg.getD r.text))
    else .ok (.jsonData r)
  else .ok (.rawResponse r)

/-- The concrete topic named `coffee` used by the composition test. -/
def coffeeTopic : TopicInfo :=
  ⟨"t1".toList, "coffee".toList, "link".toList, "topic".toList⟩

/-! ### Proxy IP pool (`src/services/proxy/proxy_ip_pool.py`) -/

/-- Model `IpInfoModel` from `src/services/proxy/types.py` (the fields the
pool code dereferences: ip, port, user, password). -/
structure IpInfoModel where
  ip : Str
  port : Nat
  user : Str
  password : Str
deriving DecidableEq, Repr

/-- Mutable state of a `ProxyIpPool`: the in-memory list and the current
proxy pointer. -/
structure PoolState where
  proxyList : List IpInfoModel
  currentProxy : Option IpInfoModel
deriving DecidableEq, Repr

/-- Failures of one undecorated `get_proxy` body: the `IndexError` that
`random.choice` raises on an empty sequence, and the
`Exception("当前 IP 无效，重新获取")` raised when validation fails (named
`InvalidProxyError` by the spec). -/
inductive ProxyError where
  | indexError
  | invalidProxy
deriving DecidableEq, Repr

/-- One undecorated run of `ProxyIpPool.get_proxy`: if the pool is empty,
`_reload_proxies` replaces it with the provider result; `random.choice`
(modelled by the index `choice % length`, and `IndexError` on an empty list)
selects an endpoint, which is removed from the list; if validation is enabled
and the probe fails the call raises with the list already shrunk; otherwise
the endpoint becomes current and is returned. -/
def getProxyAttempt (provider : List IpInfoModel) (enableValidate : Bool)
    (valid : IpInfoModel → Bool) (s : PoolState) (choice : Nat) :
    Except ProxyError IpInfoModel × PoolState :=
  let l := if s.proxyList.isEmpty then provider else s.proxyList
  match l.get? (choice % l.length) with
  | none => (.error .indexError, ⟨l, s.currentProxy⟩)
  | some p =>
    let rest := l.erase p
    if enableValidate && !(valid p) then
      (.error .invalidProxy, ⟨rest, s.currentProxy⟩)
    else
      (.ok p, ⟨rest, some p⟩)

/-- Recursion for the tenacity decorator on `get_proxy`
(`retry(stop=stop_after_attempt(3), wait=wait_fixed(1))`): run an attempt; on
failure, retry on the mutated state while attempts remain.  `choices k` is the
random index drawn by attempt `k`; the final `Nat` counts attempts made. -/
def getProxyCallAux (provider : List IpInfoModel) (enableValidate : Bool)
    (valid : IpInfoModel → Bool) (choices : Nat → Nat) :
    Nat → Nat → PoolState → Except ProxyError IpInfoModel × PoolState × Nat
  | 0, _, s => (.error .indexError, s, 0)
  | fuel + 1, k, s =>
    match getProxyAttempt provider enableValidate valid s (choices k) with
    | (.ok p, s1) => (.ok p, s1, 1)
    | (.error e, s1) =>
      if fuel = 0 then (.error e, s1, 1)
      else
        let r := getProxyCallAux provider enableValidate valid choices fuel (k + 1) s1
        (r.1, r.2.1, r.2.2 + 1)

/-- Public `ProxyIpPool.get_proxy` as callers see it: the body wrapped in the
three-attempt tenacity retry. -/
def getProxyCall (provider : List IpInfoModel) (enableValidate : Bool)
    (valid : IpInfoModel → Bool) (choices : Nat → Nat) (s : PoolState) :
    Except ProxyError IpInfoModel × PoolState × Nat :=
  getProxyCallAux provider enableValidate valid choices 3 0 s

/-- Trace of successive successful `get_proxy` attempts in which the pool is
never empty at a call (so no `load()` is triggered): returns the issued
endpoints in order and the final state, or `none` if a call would reload or
fail. -/
def acquireSeq (provider : List IpInfoModel) (enableValidate : Bool)
    (valid : IpInfoModel → Bool) :
    PoolState → List Nat → Option (List IpInfoModel × PoolState)
  | s, [] => some ([], s)
  | s, i :: is =>
    if s.proxyList.isEmpty then none
    else
      match getProxyAttempt provider enableValidate valid s i with
      | (.ok p, s1) =>
        (acquireSeq provider enableValidate valid s1 is).map fun r => (p :: r.1, r.2)
      | (.error _, _) => none

/-! ### Human behavior scheduler (`src/utils/human_behavior.py`) -/

/-- State of a `HumanBehavior` instance: the enabled flag, the action
counter, and the configured session-break interval. -/
structure HumanBehaviorState where
  enabled : Bool
  actionCount : Nat
  breakInterval : Nat
deriving DecidableEq, Repr

/-- One call of `HumanBehavior.check_and_take_break`: disabled instances
return immediately; otherwise the counter is incremented and, once it
reaches the break interval, a session break is taken (the returned flag) and
the counter reset to zero. -/
def checkAndTakeBreak (s : HumanBehaviorState) : HumanBehaviorState × Bool :=
  if s.enabled = false then (s, false)
  else
    let c := s.actionCount + 1
    if s.breakInterval ≤ c then ({ s with actionCount := 0 }, true)
    else ({ s with actionCount := c }, false)

/-- Iterate `check_and_take_break` a number of times, counting the session
breaks taken. -/
def runActions : HumanBehaviorState → Nat → HumanBehaviorState × Nat
  | s, 0 => (s, 0)
  | s, n + 1 =>
    let r := checkAndTakeBreak s
    let rest := runActions r.1 n
    (rest.1, rest.2 + (if r.2 then 1 else 0))

/-- Value of `random.uniform(a, b)` for a normalized draw `t` of
`random.random()`. -/
def uniform (a b t : ℚ) : ℚ := a + (b - a) * t

/-- Delay computed by `HumanBehavior.random_delay`: the fixed fallback
(`CRAWLER_MAX_SLEEP_SEC`) when the simulation is disabled, else a uniform
draw from the given interval. -/
def randomDelay (enabled : Bool) (fallback minSec maxSec t : ℚ) : ℚ :=
  if enabled = false then fallback else uniform minSec maxSec t

/-- Delay computed by `HumanBehavior.page_view_delay`: the fallback when
disabled; else a uniform draw from the page-view interval plus
`min(content_length / 2000, 2.0)` extra reading time. -/
def pageViewDelay (enabled : Bool) (fallback minSec maxSec : ℚ)
    (contentLength : ℕ) (t : ℚ) : ℚ :=
  if enabled = false then fallback
  else uniform minSec maxSec t + min ((contentLength : ℚ) / 2000) 2

/-- Delay computed by `HumanBehavior.action_delay` from the micro-action
interval. -/
def actionDelay (enabled : Bool) (fallback minSec maxSec t : ℚ) : ℚ :=
  if enabled = false then fallback else uniform minSec maxSec t

/-- Delay computed by `HumanBehavior.comment_crawl_delay` from the
comment-read interval. -/
def commentCrawlDelay (enabled : Bool) (fallback minSec maxSec t : ℚ) : ℚ :=
  if enabled = false then fallback else uniform minSec maxSec t

/-- Delay computed by `HumanBehavior.session_break_delay` from the
session-break interval. -/
def sessionBreakDelay (enabled : Bool) (fallback minSec maxSec t : ℚ) : ℚ :=
  if enabled = false then fallback else uniform minSec maxSec t

/-! ### Browser launcher cleanup (`src/utils/browser_launcher.py`) -/

/-- A live process handle as `cleanup` observes it: whether `poll()` reports
the process as already exited. -/
structure BrowserProcess where
  exited : Bool
deriving DecidableEq, Repr

/-- Outcomes of the OS calls inside the non-Windows termination block:
whether `os.getpgid` finds the process, whether `os.killpg(SIGTERM)` finds
the group, whether the graceful `wait(timeout=5)` returns in time, and
whether the post-`SIGKILL` wait returns in time. -/
structure TermEnv where
  pgidExists : Bool
  killpgDelivers : Bool
  gracefulExitInTime : Bool
  killWaitInTime : Bool
deriving DecidableEq, Repr

/-- Exceptions the termination block can raise internally. -/
inductive OsError where
  | processLookup
  | timeoutExpired
deriving DecidableEq, Repr

/-- Body of the `try` block of `cleanup` on POSIX: `os.getpgid` may raise
`ProcessLookupError`; `os.killpg(SIGTERM)` raising `ProcessLookupError` is
caught and logged locally; otherwise the graceful wait, and on its timeout
the `SIGKILL` escalation with its own wait. -/
def terminateBody (env : TermEnv) : Except OsError Unit :=
  if env.pgidExists = false then .error .processLookup
  else if env.killpgDelivers = false then .ok ()
  else if env.gracefulExitInTime then .ok ()
  else if env.killWaitInTime then .ok ()
  else .error .timeoutExpired

/-- State of a `BrowserLauncher` relevant to `cleanup`. -/
structure BrowserLauncherState where
  browserProcess : Option BrowserProcess
deriving DecidableEq, Repr

/-- `BrowserLauncher.cleanup`: returns immediately when no handle is stored;
clears the handle when the process already exited; otherwise runs the
termination block, catches every exception it raises (logging only), and in
the `finally` clause clears the handle.  The boolean records whether the call
raised an exception to its caller. -/
def cleanup (env : TermEnv) (s : BrowserLauncherState) :
    BrowserLauncherState × Bool :=
  match s.browserProcess with
  | none => (s, false)
  | some p =>
    if p.exited then (⟨none⟩, false)
    else
      match terminateBody env with
      | .ok _ => (⟨none⟩, false)
      | .error _ => (⟨none⟩, false)

/-! ### Async JSON writer (`src/utils/async_file_writer.py`) -/

/-- Observable state of a whole-document JSON output target as
`write_single_item_to_json` reads it: missing, empty, present but not valid
JSON, a JSON list, or a JSON non-list value. -/
inductive JsonFileState (Item : Type) where
  | absent
  | emptyFile
  | invalidJson (raw : Str)
  | validList (items : List Item)
  | validOther (v : Item)
deriving DecidableEq, Repr

/-- `AsyncFileWriter.write_single_item_to_json`: reads the existing document
(a missing or empty file yields `[]`; a `JSONDecodeError` is swallowed and
yields `[]`; a non-list JSON value is wrapped in a singleton list), appends
the record in memory, and rewrites the whole file.  The boolean records
whether the call raised an error. -/
def writeSingleItemToJson {Item : Type} (fs : JsonFileState Item)
    (item : Item) : JsonFileState Item × Bool :=
  let existingData : List Item :=
    match fs with
    | .absent => []
    | .emptyFile => []
    | .invalidJson _ => []
    | .validList xs => xs
    | .validOther v => [v]
  (.validList (existingData ++ [item]), false)

/-! ### Theorems -/

/-- C1: for every publish run requesting uploads for a non-empty asset list,
if the credential step returns fewer slot identifiers than assets, the
pipeline fails with the insufficient-credential error and performs zero
uploads: the emitted `PUT` list is empty. -/
theorem C1_insufficient_credential_zero_uploads (dims : Str → Nat × Nat)
    (permit : UploadPermit) (imagePaths : List Str)
    (hne : imagePaths ≠ [])
    (hlt : permit.fileIds.length < imagePaths.length) :
    uploadImages dims permit imagePaths =
      (.error (.insufficientCredential permit.fileIds.length imagePaths.length),
       []) := by
  unfold uploadImages
  simp [List.isEmpty_iff, hne, hlt]

/-- Witness for C1 at a concrete input: two assets, one slot identifier. -/
theorem C1_insufficient_credential_zero_uploads_witness :
    (["p1".toList, "p2".toList] : List Str) ≠ [] ∧
    (UploadPermit.mk ["f1".toList] "tok".toList).fileIds.length < 2 ∧
    uploadImages (fun _ => (640, 480)) ⟨["f1".toList], "tok".toList⟩
        ["p1".toList, "p2".toList] =
      (.error (.insufficientCredential 1 2), []) :=
  ⟨by decide, by decide,
   C1_insufficient_credential_zero_uploads (fun _ => (640, 480))
     ⟨["f1".toList], "tok".toList⟩ ["p1".toList, "p2".toList]
     (by decide) (by decide)⟩

/-- C3: a signed request whose response has transport status 200 and a JSON
dict body whose `success` field is false raises the API error carrying the
provider-supplied message and is never returned as a success value; every
non-2xx transport status raises the HTTP error. -/
theorem C3_success_false_is_api_error (r : RawResponse) :
    (r.status = 200 → r.contentTypeJson = true → r.jsonIsDict = true →
      r.successIsFalse = true →
      requestOnce r = .error (.apiError (r.msg.getD r.text))) ∧
    (isSuccessStatus r.status = false →
      requestOnce r = .error (.httpError r.status)) := by
  constructor
  · intro h200 hct hdict hsf
    simp [requestOnce, isSuccessStatus, h200, hct, hdict, hsf]
  · intro h
    simp [requestOnce, h]

/-- Witness for C3: a 200 response with a success-false body is classified
as the API error; a 404 response is classified as the HTTP error. -/
theorem C3_success_false_is_api_error_witness :
    requestOnce ⟨200, true, true, true, some "boom".toList, "txt".toList⟩ =
      .error (.apiError ((some "boom".toList).getD "txt".toList)) ∧
    requestOnce ⟨404, true, false, false, none, "nf".toList⟩ =
      .error (.httpError 404) :=
  ⟨(C3_success_false_is_api_error
      ⟨200, true, true, true, some "boom".toList, "txt".toList⟩).1
      rfl rfl rfl rfl,
   (C3_success_false_is_api_error
      ⟨404, true, false, false, none, "nf".toList⟩).2 (by decide)⟩

/-- C8: `cleanup` never raises, leaves no stored process handle, and a
second call right after the first (the process then being gone) is a safe
no-op, whatever the OS termination calls did and whatever the starting
state was. -/
theorem C8_cleanup_idempotent (env1 env2 : TermEnv)
    (s : BrowserLauncherState) :
    (cleanup env1 s).2 = false ∧
    (cleanup env1 s).1.browserProcess = none ∧
    cleanup env2 (cleanup env1 s).1 = ((cleanup env1 s).1, false) := by
  rcases s with ⟨_ | p⟩
  · exact ⟨rfl, rfl, rfl⟩
  · cases hp : p.exited <;> cases hbody : terminateBody env1 <;>
      simp [cleanup, hp, hbody]

/-- C10: when the existing whole-document JSON target is not valid JSON, the
next append silently rewrites the file as a one-element list holding only
the new record: no error is raised and the prior content is gone. -/
theorem C10_invalid_json_silently_discarded {Item : Type} (raw : Str)
    (item : Item) :
    writeSingleItemToJson (.invalidJson raw) item =
      (.validList [item], false) := rfl

/-- Helper: with an empty provider and an empty pool, one `get_proxy` body
reloads an empty list and then hits `random.choice` with no emptiness
guard. -/
theorem getProxyAttempt_empty_provider (ev : Bool) (valid : IpInfoModel → Bool)
    (s : PoolState) (i : Nat) (hpool : s.proxyList = []) :
    getProxyAttempt [] ev valid s i =
      (.error .indexError, ⟨[], s.currentProxy⟩) := by
  simp [getProxyAttempt, hpool]

/-- C9: with a provider returning an empty endpoint list and an empty pool,
an acquire reloads an empty list and selects from it without an emptiness
guard, failing with the unclassified `IndexError` (not a provider or
invalid-proxy error); the three-attempt retry wrapper then surfaces the
same `IndexError` after exactly 3 attempts. -/
theorem C9_empty_provider_index_error (ev : Bool)
    (valid : IpInfoModel → Bool) (choices : Nat → Nat) (s : PoolState)
    (i : Nat) (hpool : s.proxyList = []) :
    getProxyAttempt [] ev valid s i =
      (.error .indexError, ⟨[], s.currentProxy⟩) ∧
    getProxyCall [] ev valid choices s =
      (.error .indexError, ⟨[], s.currentProxy⟩, 3) := by
  refine ⟨getProxyAttempt_empty_provider ev valid s i hpool, ?_⟩
  unfold getProxyCall getProxyCallAux
  rw [getProxyAttempt_empty_provider ev valid s (choices 0) hpool]
  simp only []
  unfold getProxyCallAux
  rw [getProxyAttempt_empty_provider ev valid ⟨[], s.currentProxy⟩ (choices 1) rfl]
  simp only []
  unfold getProxyCallAux
  rw [getProxyAttempt_empty_provider ev valid ⟨[], s.currentProxy⟩ (choices 2) rfl]
  simp

/-- Witness for C9 at a concrete input: empty pool, empty provider. -/
theorem C9_empty_provider_index_error_witness :
    (PoolState.mk [] none).proxyList = [] ∧
    (getProxyAttempt [] false (fun _ => true) ⟨[], none⟩ 0 =
      (.error .indexError, ⟨[], none⟩) ∧
     getProxyCall [] false (fun _ => true) (fun _ => 0) ⟨[], none⟩ =
      (.error .indexError, ⟨[], none⟩, 3)) :=
  ⟨rfl, C9_empty_provider_index_error false (fun _ => true) (fun _ => 0)
    ⟨[], none⟩ 0 rfl⟩

/-- Helper: below the break interval, iterated `check_and_take_break` calls
only advance the counter and take no break. -/
theorem runActions_below_interval (bi : Nat) :
    ∀ (m j : Nat), j + m < bi →
      runActions ⟨true, j, bi⟩ m = (⟨true, j + m, bi⟩, 0) := by
  intro m
  induction m with
  | zero => intro j h; simp [runActions]
  | succ n ih =>
    intro j h
    have hlt : ¬ bi ≤ j + 1 := by omega
    have hstep : checkAndTakeBreak ⟨true, j, bi⟩ = (⟨true, j + 1, bi⟩, false) := by
      simp [checkAndTakeBreak, hlt]
    have hrest := ih (j + 1) (by omega)
    simp [runActions, hstep, hrest]
    omega

/-- Helper: when the counter reaches the break interval exactly on the last
of `m` calls, exactly one break is taken and the counter ends at zero. -/
theorem runActions_hits_interval (bi : Nat) :
    ∀ (m j : Nat), 1 ≤ m → j + m = bi →
      runActions ⟨true, j, bi⟩ m = (⟨true, 0, bi⟩, 1) := by
  intro m
  induction m with
  | zero => intro j h1 _; omega
  | succ n ih =>
    intro j h1 h2
    cases n with
    | zero =>
      have hge : bi ≤ j + 1 := by omega
      have hstep : checkAndTakeBreak ⟨true, j, bi⟩ = (⟨true, 0, bi⟩, true) := by
        simp [checkAndTakeBreak, hge]
      simp [runActions, hstep]
    | succ k =>
      have hlt : ¬ bi ≤ j + 1 := by omega
      have hstep : checkAndTakeBreak ⟨true, j, bi⟩ = (⟨true, j + 1, bi⟩, false) := by
        simp [checkAndTakeBreak, hlt]
      have hrest := ih (j + 1) (by omega) (by omega)
      have key : runActions ⟨true, j, bi⟩ (k + 1 + 1) =
          ((runActions (checkAndTakeBreak ⟨true, j, bi⟩).1 (k + 1)).1,
           (runActions (checkAndTakeBreak ⟨true, j, bi⟩).1 (k + 1)).2 +
             (if (checkAndTakeBreak ⟨true, j, bi⟩).2 then 1 else 0)) := rfl
      rw [key, hstep]
      simp [hrest]

/-- C6: with the simulation enabled and the counter at zero, calling
`check_and_take_break` exactly `break_interval` times triggers exactly one
session break and leaves the counter at zero, while any shorter run of
calls triggers no break at all (so the single break falls on the
`break_interval`-th call). -/
theorem C6_break_on_interval_call (s : HumanBehaviorState)
    (hen : s.enabled = true) (hzero : s.actionCount = 0)
    (hpos : 1 ≤ s.breakInterval) :
    runActions s s.breakInterval = ({ s with actionCount := 0 }, 1) ∧
    ∀ m : Nat, m < s.breakInterval →
      runActions s m = ({ s with actionCount := m }, 0) := by
  obtain ⟨e, c, bi⟩ := s
  dsimp only at hen hzero hpos ⊢
  subst hen
  subst hzero
  constructor
  · exact runActions_hits_interval bi bi 0 hpos (by omega)
  · intro m hm
    simpa using runActions_below_interval bi m 0 (by omega)

/-- Witness for C6 at a concrete input: interval 3, enabled, counter 0. -/
theorem C6_break_on_interval_call_witness :
    (HumanBehaviorState.mk true 0 3).enabled = true ∧
    (HumanBehaviorState.mk true 0 3).actionCount = 0 ∧
    1 ≤ (HumanBehaviorState.mk true 0 3).breakInterval ∧
    (runActions ⟨true, 0, 3⟩ 3 = (⟨true, 0, 3⟩, 1) ∧
     ∀ m : Nat, m < 3 → runActions ⟨true, 0, 3⟩ m = (⟨true, m, 3⟩, 0)) :=
  ⟨rfl, rfl, by decide,
   C6_break_on_interval_call ⟨true, 0, 3⟩ rfl rfl (by decide)⟩

/-- Helper: a uniform draw with a normalized sample stays inside its
interval. -/
theorem uniform_mem_interval (a b t : ℚ) (ht0 : 0 ≤ t) (ht1 : t ≤ 1)
    (hab : a ≤ b) : a ≤ uniform a b t ∧ uniform a b t ≤ b := by
  unfold uniform
  constructor
  · nlinarith
  · nlinarith

/-- C7: every delay category stays inside its configured interval when the
simulation is enabled and equals the fixed fallback when disabled; the
page-view delay additionally gains at most `min(content_length / 2000, 2)`
seconds, so it lies in the widened interval. -/
theorem C7_delays_within_bounds (fallback minSec maxSec : ℚ)
    (contentLength : ℕ) (t : ℚ)
    (ht0 : 0 ≤ t) (ht1 : t ≤ 1) (hmm : minSec ≤ maxSec) :
    (minSec ≤ randomDelay true fallback minSec maxSec t ∧
      randomDelay true fallback minSec maxSec t ≤ maxSec) ∧
    (minSec ≤ actionDelay true fallback minSec maxSec t ∧
      actionDelay true fallback minSec maxSec t ≤ maxSec) ∧
    (minSec ≤ commentCrawlDelay true fallback minSec maxSec t ∧
      commentCrawlDelay true fallback minSec maxSec t ≤ maxSec) ∧
    (minSec ≤ sessionBreakDelay true fallback minSec maxSec t ∧
      sessionBreakDelay true fallback minSec maxSec t ≤ maxSec) ∧
    (minSec ≤ pageViewDelay true fallback minSec maxSec contentLength t ∧
      pageViewDelay true fallback minSec maxSec contentLength t ≤
        maxSec + min ((contentLength : ℚ) / 2000) 2) ∧
    randomDelay false fallback minSec maxSec t = fallback ∧
    actionDelay false fallback minSec maxSec t = fallback ∧
    commentCrawlDelay false fallback minSec maxSec t = fallback ∧
    sessionBreakDelay false fallback minSec maxSec t = fallback ∧
    pageViewDelay false fallback minSec maxSec contentLength t = fallback := by
  obtain ⟨hlo, hhi⟩ := uniform_mem_interval minSec maxSec t ht0 ht1 hmm
  have hextra0 : (0 : ℚ) ≤ min ((contentLength : ℚ) / 2000) 2 :=
    le_min (by positivity) (by norm_num)
  refine ⟨⟨hlo, hhi⟩, ⟨hlo, hhi⟩, ⟨hlo, hhi⟩, ⟨hlo, hhi⟩, ⟨?_, ?_⟩,
    rfl, rfl, rfl, rfl, rfl⟩
  · unfold pageViewDelay
    rw [if_neg (by simp)]
    linarith
  · unfold pageViewDelay
    rw [if_neg (by simp)]
    linarith

/-- Witness for C7 at concrete values: interval `[1, 3]`, fallback `2`,
content length `1000`, sample `1/2`. -/
theorem C7_delays_within_bounds_witness :
    (0 : ℚ) ≤ 1 / 2 ∧ (1 / 2 : ℚ) ≤ 1 ∧ (1 : ℚ) ≤ 3 ∧
    (((1 : ℚ) ≤ randomDelay true 2 1 3 (1 / 2) ∧
       randomDelay true 2 1 3 (1 / 2) ≤ 3) ∧
     ((1 : ℚ) ≤ actionDelay true 2 1 3 (1 / 2) ∧
       actionDelay true 2 1 3 (1 / 2) ≤ 3) ∧
     ((1 : ℚ) ≤ commentCrawlDelay true 2 1 3 (1 / 2) ∧
       commentCrawlDelay true 2 1 3 (1 / 2) ≤ 3) ∧
     ((1 : ℚ) ≤ sessionBreakDelay true 2 1 3 (1 / 2) ∧
       sessionBreakDelay true 2 1 3 (1 / 2) ≤ 3) ∧
     ((1 : ℚ) ≤ pageViewDelay true 2 1 3 1000 (1 / 2) ∧
       pageViewDelay true 2 1 3 1000 (1 / 2) ≤
         3 + min (((1000 : ℕ) : ℚ) / 2000) 2) ∧
     randomDelay false 2 1 3 (1 / 2) = 2 ∧
     actionDelay false 2 1 3 (1 / 2) = 2 ∧
     commentCrawlDelay false 2 1 3 (1 / 2) = 2 ∧
     sessionBreakDelay false 2 1 3 (1 / 2) = 2 ∧
     pageViewDelay false 2 1 3 1000 (1 / 2) = 2) :=
  ⟨by norm_num, by norm_num, by norm_num,
   C7_delays_within_bounds 2 1 3 1000 (1 / 2)
     (by norm_num) (by norm_num) (by norm_num)⟩

/-- Helper: the substring test holds exactly when the text splits around the
pattern. -/
theorem containsSubstring_iff (pat l : Str) :
    containsSubstring pat l = true ↔ ∃ u v, l = u ++ pat ++ v := by
  unfold containsSubstring
  rw [List.any_eq_true]
  constructor
  · rintro ⟨i, _, hpre⟩
    rw [ List.isPrefixOf_iff_prefix] at hpre
    obtain ⟨v, hv⟩ := hpre
    exact ⟨l.take i, v, by rw [List.append_assoc, hv, List.take_append_drop]⟩
  · rintro ⟨u, v, rfl⟩
    refine ⟨u.length, ?_, ?_⟩
    · rw [List.mem_range]
      simp [List.length_append]
      omega
    · rw [ List.isPrefixOf_iff_prefix, List.append_assoc, List.drop_left]
      exact ⟨v, rfl⟩

/-- Helper: a substring of a text is still a substring after appending on
the right. -/
theorem containsSubstring_append_right (pat l s : Str)
    (h : containsSubstring pat l = true) :
    containsSubstring pat (l ++ s) = true := by
  rw [containsSubstring_iff] at h ⊢
  obtain ⟨u, v, rfl⟩ := h
  exact ⟨u, v ++ s, by simp⟩

/-- Helper: one composition step only ever appends text on the right. -/
theorem buildStep_eq_append (d : Str) (t : TopicInfo) :
    ∃ s, buildStep d t = d ++ s := by
  unfold buildStep
  cases h : containsSubstring ('#' :: t.name) d
  · exact ⟨' ' :: tagText t, by simp [h]⟩
  · exact ⟨[], by simp [h]⟩

/-- Helper: the whole composition only ever appends text on the right. -/
theorem buildDescWithTopics_eq_append (topics : List TopicInfo) :
    ∀ d : Str, ∃ s, buildDescWithTopics d topics = d ++ s := by
  induction topics with
  | nil => exact fun d => ⟨[], by simp [buildDescWithTopics]⟩
  | cons t ts ih =>
    intro d
    obtain ⟨s1, hs1⟩ := buildStep_eq_append d t
    obtain ⟨s2, hs2⟩ := ih (buildStep d t)
    refine ⟨s1 ++ s2, ?_⟩
    have hstep : buildDescWithTopics d (t :: ts) =
        buildDescWithTopics (buildStep d t) ts := rfl
    rw [hstep, hs2, hs1, List.append_assoc]

/-- Helper: after one composition step for a topic, its hashtag occurs in
the text. -/
theorem contains_hashtag_buildStep (d : Str) (t : TopicInfo) :
    containsSubstring ('#' :: t.name) (buildStep d t) = true := by
  unfold buildStep
  cases h : containsSubstring ('#' :: t.name) d
  · rw [if_neg (by simp [h])]
    have hshape : d ++ ' ' :: tagText t =
        (d ++ ' ' :: TOPIC_MARKER) ++ ('#' :: t.name) ++
          ("[话题]#".toList ++ TOPIC_MARKER) := by
      simp [tagText, TOPIC_MARKER]
    rw [hshape]
    exact (containsSubstring_iff _ _).mpr ⟨_, _, rfl⟩
  · rw [if_pos (by simp [h])]
    exact h

/-- Helper: after composing, every requested topic has its hashtag in the
result. -/
theorem contains_hashtag_buildDesc (topics : List TopicInfo) :
    ∀ (d : Str) (t : TopicInfo), t ∈ topics →
      containsSubstring ('#' :: t.name) (buildDescWithTopics d topics) = true := by
  induction topics with
  | nil => intro d t ht; cases ht
  | cons t1 ts ih =>
    intro d t ht
    have hstep : buildDescWithTopics d (t1 :: ts) =
        buildDescWithTopics (buildStep d t1) ts := rfl
    rcases List.mem_cons.mp ht with rfl | hmem
    · obtain ⟨s, hs⟩ := buildDescWithTopics_eq_append ts (buildStep d t)
      rw [hstep, hs]
      exact containsSubstring_append_right _ _ _ (contains_hashtag_buildStep d t)
    · rw [hstep]
      exact ih _ t hmem

/-- Helper: composing over text that already contains every hashtag is the
identity. -/
theorem buildDesc_id_of_contains (topics : List TopicInfo) :
    ∀ r : Str,
      (∀ t ∈ topics, containsSubstring ('#' :: t.name) r = true) →
      buildDescWithTopics r topics = r := by
  induction topics with
  | nil => intro r _; rfl
  | cons t ts ih =>
    intro r h
    have ht := h t (List.mem_cons_self t ts)
    have hstep : buildStep r t = r := by
      unfold buildStep
      rw [if_pos (by simp [ht])]
    have hrw : buildDescWithTopics r (t :: ts) =
        buildDescWithTopics (buildStep r t) ts := rfl
    rw [hrw, hstep]
    exact ih r fun t1 ht1 => h t1 (List.mem_cons_of_mem _ ht1)

/-- C2: composing the description `hello` with the resolved topic `coffee`
yields exactly one marker-wrapped occurrence of the coffee hashtag token,
and description composition is idempotent for every description and topic
list: re-running it on its own output changes nothing. -/
theorem C2_compose_once_and_idempotent :
    countOccurrences (tagText coffeeTopic)
      (buildDescWithTopics "hello".toList [coffeeTopic]) = 1 ∧
    ∀ (desc : Str) (topics : List TopicInfo),
      buildDescWithTopics (buildDescWithTopics desc topics) topics =
        buildDescWithTopics desc topics := by
  constructor
  · decide
  · intro desc topics
    exact buildDesc_id_of_contains topics _
      (fun t ht => contains_hashtag_buildDesc topics desc t ht)

/-- Helper: a successful `get_proxy` body on a non-empty pool returns a
member of the pool, removes it, and records it as current. -/
theorem getProxyAttempt_ok_spec (provider : List IpInfoModel) (ev : Bool)
    (valid : IpInfoModel → Bool) (s : PoolState) (i : Nat)
    (p : IpInfoModel) (s1 : PoolState)
    (hne : s.proxyList ≠ [])
    (h : getProxyAttempt provider ev valid s i = (.ok p, s1)) :
    p ∈ s.proxyList ∧ s1.proxyList = s.proxyList.erase p ∧
      s1.currentProxy = some p := by
  have hE : s.proxyList.isEmpty = false := by
    cases hx : s.proxyList
    · exact absurd hx hne
    · rfl
  unfold getProxyAttempt at h
  simp only [hE, Bool.false_eq_true, if_false] at h
  cases hg : s.proxyList.get? (i % s.proxyList.length) with
  | none =>
    simp only [hg] at h
    injection h with h1 h2
    exact absurd h1 (by simp)
  | some q =>
    simp only [hg] at h
    have hmem : q ∈ s.proxyList := List.get?_mem hg
    cases hv : ev && !(valid q)
    · rw [if_neg (by rw [hv]; simp)] at h
      injection h with h1 h2
      injection h1 with h1
      subst h1
      subst h2
      exact ⟨hmem, rfl, rfl⟩
    · rw [if_pos hv] at h
      injection h with h1 h2
      exact absurd h1 (by simp)

/-- Helper: in a no-reload trace, every issued endpoint and every endpoint
left in the final pool was in the starting pool. -/
theorem acquireSeq_mem (provider : List IpInfoModel) (ev : Bool)
    (valid : IpInfoModel → Bool) :
    ∀ (choices : List Nat) (s : PoolState) (ps : List IpInfoModel)
      (s1 : PoolState),
      acquireSeq provider ev valid s choices = some (ps, s1) →
      (∀ p ∈ ps, p ∈ s.proxyList) ∧ ∀ q ∈ s1.proxyList, q ∈ s.proxyList := by
  intro choices
  induction choices with
  | nil =>
    intro s ps s1 h
    simp only [acquireSeq, Option.some.injEq] at h
    obtain ⟨rfl, rfl⟩ := Prod.mk.injEq .. ▸ h
    exact ⟨by simp, fun q hq => hq⟩
  | cons i is ih =>
    intro s ps s1 h
    unfold acquireSeq at h
    cases hE : s.proxyList.isEmpty with
    | true => simp [hE] at h
    | false =>
      have hne : s.proxyList ≠ [] := fun hx => by simp [hx] at hE
      simp only [hE, Bool.false_eq_true, if_false] at h
      rcases hA : getProxyAttempt provider ev valid s i with ⟨res, s2⟩
      rw [hA] at h
      cases res with
      | error e => simp at h
      | ok p =>
        simp only [Option.map_eq_some'] at h
        obtain ⟨⟨ps2, s3⟩, hrec, heq⟩ := h
        obtain ⟨hps, hs1⟩ := Prod.mk.injEq .. ▸ heq
        subst hps
        subst hs1
        obtain ⟨hpmem, hlist, _⟩ :=
          getProxyAttempt_ok_spec provider ev valid s i p s2 hne hA
        obtain ⟨hmem2, hsub2⟩ := ih s2 ps2 s3 hrec
        refine ⟨?_, ?_⟩
        · intro q hq
          rcases List.mem_cons.mp hq with rfl | hq2
          · exact hpmem
          · exact List.erase_subset _ _ (hlist ▸ hmem2 q hq2)
        · intro q hq
          exact List.erase_subset _ _ (hlist ▸ hsub2 q hq)

/-- Helper: in a no-reload trace starting from a duplicate-free pool, the
issued endpoints are pairwise distinct and none of them remains in (or
returns to) the pool. -/
theorem acquireSeq_nodup (provider : List IpInfoModel) (ev : Bool)
    (valid : IpInfoModel → Bool) :
    ∀ (choices : List Nat) (s : PoolState) (ps : List IpInfoModel)
      (s1 : PoolState),
      s.proxyList.Nodup →
      acquireSeq provider ev valid s choices = some (ps, s1) →
      ps.Nodup ∧ ∀ p ∈ ps, p ∉ s1.proxyList := by
  intro choices
  induction choices with
  | nil =>
    intro s ps s1 _ h
    simp only [acquireSeq, Option.some.injEq] at h
    obtain ⟨rfl, rfl⟩ := Prod.mk.injEq .. ▸ h
    exact ⟨List.nodup_nil, by simp⟩
  | cons i is ih =>
    intro s ps s1 hnd h
    unfold acquireSeq at h
    cases hE : s.proxyList.isEmpty with
    | true => simp [hE] at h
    | false =>
      have hne : s.proxyList ≠ [] := fun hx => by simp [hx] at hE
      simp only [hE, Bool.false_eq_true, if_false] at h
      rcases hA : getProxyAttempt provider ev valid s i with ⟨res, s2⟩
      rw [hA] at h
      cases res with
      | error e => simp at h
      | ok p =>
        simp only [Option.map_eq_some'] at h
        obtain ⟨⟨ps2, s3⟩, hrec, heq⟩ := h
        obtain ⟨hps, hs1⟩ := Prod.mk.injEq .. ▸ heq
        subst hps
        subst hs1
        obtain ⟨hpmem, hlist, _⟩ :=
          getProxyAttempt_ok_spec provider ev valid s i p s2 hne hA
        have hnd2 : s2.proxyList.Nodup := hlist ▸ hnd.erase p
        have hnotmem : p ∉ s2.proxyList := by
          rw [hlist]
          simp [hnd.mem_erase_iff]
        obtain ⟨hmem2, hsub2⟩ := acquireSeq_mem provider ev valid is s2 ps2 s3 hrec
        obtain ⟨hnodup2, hgone2⟩ := ih s2 ps2 s3 hnd2 hrec
        refine ⟨List.nodup_cons.mpr ⟨fun hp => hnotmem (hmem2 p hp), hnodup2⟩, ?_⟩
        intro q hq
        rcases List.mem_cons.mp hq with rfl | hq2
        · exact fun hq3 => hnotmem (hsub2 q hq3)
        · exact hgone2 q hq2

/-- C4: starting from a duplicate-free pool, every successful acquire
removes the issued endpoint from the in-memory pool at the moment it is
issued, and along any sequence of acquires in which no reload occurs, no
endpoint is ever issued twice. -/
theorem C4_uniqueness_until_reload (provider : List IpInfoModel) (ev : Bool)
    (valid : IpInfoModel → Bool) (choices : List Nat) (s : PoolState)
    (ps : List IpInfoModel) (s1 : PoolState)
    (hnodup : s.proxyList.Nodup)
    (hrun : acquireSeq provider ev valid s choices = some (ps, s1)) :
    ps.Nodup ∧ (∀ p ∈ ps, p ∉ s1.proxyList) ∧
    ∀ (s0 : PoolState) (i : Nat) (p : IpInfoModel) (s2 : PoolState),
      s0.proxyList.Nodup → s0.proxyList ≠ [] →
      getProxyAttempt provider ev valid s0 i = (.ok p, s2) →
      p ∉ s2.proxyList := by
  obtain ⟨h1, h2⟩ := acquireSeq_nodup provider ev valid choices s ps s1 hnodup hrun
  refine ⟨h1, h2, ?_⟩
  intro s0 i p s2 hnd0 hne0 hA
  obtain ⟨_, hlist, _⟩ := getProxyAttempt_ok_spec provider ev valid s0 i p s2 hne0 hA
  rw [hlist]
  simp [hnd0.mem_erase_iff]

/-- Concrete endpoints used by the proxy-pool witnesses. -/
def proxyA : IpInfoModel := ⟨"10.0.0.1".toList, 8080, [], []⟩

/-- Second concrete endpoint used by the proxy-pool witnesses. -/
def proxyB : IpInfoModel := ⟨"10.0.0.2".toList, 8080, [], []⟩

/-- Witness for C4: a pool of two distinct endpoints issues each exactly
once across two acquires and ends empty. -/
theorem C4_uniqueness_until_reload_witness :
    (PoolState.mk [proxyA, proxyB] none).proxyList.Nodup ∧
    acquireSeq [] false (fun _ => true) ⟨[proxyA, proxyB], none⟩ [0, 0] =
      some ([proxyA, proxyB], ⟨[], some proxyB⟩) ∧
    ([proxyA, proxyB].Nodup ∧
     (∀ p ∈ [proxyA, proxyB], p ∉ (PoolState.mk [] (some proxyB)).proxyList) ∧
     ∀ (s0 : PoolState) (i : Nat) (p : IpInfoModel) (s2 : PoolState),
       s0.proxyList.Nodup → s0.proxyList ≠ [] →
       getProxyAttempt [] false (fun _ => true) s0 i = (.ok p, s2) →
       p ∉ s2.proxyList) :=
  ⟨by decide, by decide,
   C4_uniqueness_until_reload [] false (fun _ => true) [0, 0]
     ⟨[proxyA, proxyB], none⟩ [proxyA, proxyB] ⟨[], some proxyB⟩
     (by decide) (by decide)⟩

/-- Validation oracle that accepts only `proxyB`. -/
def validOnlyB (e : IpInfoModel) : Bool := decide (e = proxyB)

/-- Counterexample to C5: the probe of the first selected endpoint
(`proxyA`) fails, yet the single public `get_proxy` call does not fail with
the invalid-proxy error — the tenacity decorator on `get_proxy` itself
retries internally and returns the replacement endpoint `proxyB` on its
second attempt. -/
theorem C5_counterexample_retry_is_inside_acquire :
    validOnlyB proxyA = false ∧
    getProxyAttempt [] true validOnlyB ⟨[proxyA, proxyB], none⟩ 0 =
      (.error .invalidProxy, ⟨[proxyB], none⟩) ∧
    getProxyCall [] true validOnlyB (fun _ => 0) ⟨[proxyA, proxyB], none⟩ =
      (.ok proxyB, ⟨[], some proxyB⟩, 2) :=
  ⟨rfl, rfl, rfl⟩

/-- Helper: when every probe fails, each `get_proxy` body raises the
invalid-proxy error (given a non-empty provider, so the choice itself
cannot fail). -/
theorem getProxyAttempt_all_invalid (provider : List IpInfoModel)
    (valid : IpInfoModel → Bool) (hprov : provider ≠ [])
    (hinvalid : ∀ e, valid e = false) (s : PoolState) (i : Nat) :
    ∃ rest : List IpInfoModel,
      getProxyAttempt provider true valid s i =
        (.error .invalidProxy, ⟨rest, s.currentProxy⟩) := by
  unfold getProxyAttempt
  cases hE : s.proxyList.isEmpty with
  | true =>
    simp only [hE, if_true]
    cases hg : provider.get? (i % provider.length) with
    | none =>
      exfalso
      rw [List.get?_eq_none] at hg
      have h0 : 0 < provider.length := List.length_pos.mpr hprov
      have := Nat.mod_lt i h0
      omega
    | some p =>
      simp only [hg]
      rw [if_pos (by simp [hinvalid p])]
      exact ⟨_, rfl⟩
  | false =>
    have hne : s.proxyList ≠ [] := fun hx => by simp [hx] at hE
    simp only [hE, Bool.false_eq_true, if_false]
    cases hg : s.proxyList.get? (i % s.proxyList.length) with
    | none =>
      exfalso
      rw [List.get?_eq_none] at hg
      have h0 : 0 < s.proxyList.length := List.length_pos.mpr hne
      have := Nat.mod_lt i h0
      omega
    | some p =>
      simp only [hg]
      rw [if_pos (by simp [hinvalid p])]
      exact ⟨_, rfl⟩

/-- Helper: when every probe fails, the retry wrapper spends all its
attempts and surfaces the invalid-proxy error. -/
theorem getProxyCallAux_all_invalid (provider : List IpInfoModel)
    (valid : IpInfoModel → Bool) (choices : Nat → Nat)
    (hprov : provider ≠ []) (hinvalid : ∀ e, valid e = false) :
    ∀ (n k : Nat) (s : PoolState), 1 ≤ n →
      ∃ s1, getProxyCallAux provider true valid choices n k s =
        (.error .invalidProxy, s1, n) := by
  intro n
  induction n with
  | zero => intro k s h; omega
  | succ m ih =>
    intro k s _
    obtain ⟨rest, hA⟩ :=
      getProxyAttempt_all_invalid provider valid hprov hinvalid s (choices k)
    cases m with
    | zero =>
      refine ⟨⟨rest, s.currentProxy⟩, ?_⟩
      unfold getProxyCallAux
      simp [hA]
    | succ m2 =>
      obtain ⟨s2, hrec⟩ := ih (k + 1) ⟨rest, s.currentProxy⟩ (by omega)
      refine ⟨s2, ?_⟩
      unfold getProxyCallAux
      simp only [hA]
      rw [if_neg (by omega)]
      rw [hrec]

/-- C5 amended: within one underlying attempt of `get_proxy` no replacement
endpoint is selected (a returned endpoint always passed its probe), but the
three-attempt fixed-backoff retry is a decorator on `get_proxy` itself, not
at the call site: when every probe fails, a single public call spends
exactly 3 attempts internally before surfacing the invalid-proxy error. -/
theorem C5_amended_retry_bound (provider : List IpInfoModel)
    (valid : IpInfoModel → Bool) (choices : Nat → Nat) (s : PoolState)
    (hprov : provider ≠ []) (hinvalid : ∀ e, valid e = false) :
    (∀ (v2 : IpInfoModel → Bool) (s0 : PoolState) (j : Nat)
        (p : IpInfoModel) (s2 : PoolState),
        getProxyAttempt provider true v2 s0 j = (.ok p, s2) → v2 p = true) ∧
    ∃ s1, getProxyCall provider true valid choices s =
      (.error .invalidProxy, s1, 3) := by
  constructor
  · intro v2 s0 j p s2 hA
    unfold getProxyAttempt at hA
    cases hg : (if s0.proxyList.isEmpty then provider else s0.proxyList).get?
        (j % (if s0.proxyList.isEmpty then provider else s0.proxyList).length) with
    | none =>
      simp only [hg] at hA
      injection hA with h1 h2
      exact absurd h1 (by simp)
    | some q =>
      simp only [hg] at hA
      cases hv : true && !(v2 q)
      · rw [if_neg (by rw [hv]; simp)] at hA
        injection hA with h1 h2
        injection h1 with h1
        subst h1
        simpa using hv
      · rw [if_pos hv] at hA
        injection hA with h1 h2
        exact absurd h1 (by simp)
  · exact getProxyCallAux_all_invalid provider valid choices hprov hinvalid
      3 0 s (by omega)

/-- Witness for the amended C5: one all-invalid provider endpoint, an empty
starting pool; the public call fails with the invalid-proxy error after
exactly 3 internal attempts. -/
theorem C5_amended_retry_bound_witness :
    ([proxyA] : List IpInfoModel) ≠ [] ∧
    (∀ e : IpInfoModel, (fun _ => false) e = false) ∧
    ((∀ (v2 : IpInfoModel → Bool) (s0 : PoolState) (j : Nat)
        (p : IpInfoModel) (s2 : PoolState),
        getProxyAttempt [proxyA] true v2 s0 j = (.ok p, s2) → v2 p = true) ∧
     ∃ s1, getProxyCall [proxyA] true (fun _ => false) (fun _ => 0)
        ⟨[], none⟩ = (.error .invalidProxy, s1, 3)) :=
  ⟨by decide, fun _ => rfl,
   C5_amended_retry_bound [proxyA] (fun _ => false) (fun _ => 0) ⟨[], none⟩
     (by decide) (fun _ => rfl)⟩

end LittleCrawler
